import Mathlib

unseal Rat.add Rat.sub Rat.mul Rat.inv Rat.ofScientific

set_option maxRecDepth 4000

/-!
# Verification of the tamatui pet demo (src/main.rs)

Shallow embedding of the application state and its two update operations:
the key-event handler inlined in `App::run` and the periodic `App::on_tick`.

Modelling conventions:
* `pet_position` is `f64 × f64` in the source; every value it can take is a
  multiple of 1/2 of magnitude far below 2^52, on which `f64` addition of
  `1.0` and `-0.5` and `min`/`max` are exact, so the embedding uses `ℚ`.
* `hunger`/`happiness` are `u32` saturated inside `0..=100` by the code, and
  `tick_count` is a `u64` that only ever increments by one (so a wrap could
  not occur within the age of the universe at the 16 ms tick rate); all three
  are `ℕ`, whose truncated subtraction coincides with `u32::saturating_sub`.
* `Rect` is ratatui's rectangle restricted to the accessors the code calls
  (`left`, `right`, `top`, `bottom`); for the fixed `Rect::new(10,10,200,100)`
  no `u16` saturation is in play, so `right = x + width`, `bottom = y + height`.
-/

/-- Ratatui `Rect`, restricted to the fields and accessors the program uses. -/
structure Rect where
  x : ℕ
  y : ℕ
  width : ℕ
  height : ℕ
deriving DecidableEq

def Rect.left (r : Rect) : ℕ := r.x

def Rect.right (r : Rect) : ℕ := r.x + r.width

def Rect.top (r : Rect) : ℕ := r.y

def Rect.bottom (r : Rect) : ℕ := r.y + r.height

/-- Ratatui `symbols::Marker` (the five variants the program matches on). -/
inductive Marker where
  | dot
  | braille
  | block
  | halfBlock
  | bar
deriving DecidableEq

/-- The `match` in `App::on_tick` that rotates the marker:
Dot→Braille→Block→HalfBlock→Bar→Dot. -/
def Marker.next : Marker → Marker
  | .dot => .braille
  | .braille => .block
  | .block => .halfBlock
  | .halfBlock => .bar
  | .bar => .dot

/-- The fixed marker cycle [Dot, Braille, Block, HalfBlock, Bar]. -/
def markerCycle : List Marker := [.dot, .braille, .block, .halfBlock, .bar]

/-- Crossterm `KeyCode`, restricted to the shapes the program's `match`
distinguishes: the four arrow keys, character keys, and everything else. -/
inductive KeyCode where
  | down
  | up
  | left
  | right
  | char (c : Char)
  | other
deriving DecidableEq

/-- The `App` struct of src/main.rs. -/
structure App where
  pet_position : ℚ × ℚ
  playground : Rect
  hunger : ℕ
  happiness : ℕ
  tick_count : ℕ
  marker : Marker
deriving DecidableEq

/-- `App::new()`. -/
def App.new : App where
  pet_position := (100, 50)
  playground := ⟨10, 10, 200, 100⟩
  hunger := 0
  happiness := 100
  tick_count := 0
  marker := .braille

/-- The key-event `match` inlined in `App::run`, as a state transformer.
`'q'` breaks the loop without touching the state; each movement arm shifts one
coordinate by 1 and clamps it on one side only, exactly as the source does;
all other keys fall to the `_ => {}` arm. -/
def App.handleKey (a : App) (k : KeyCode) : App :=
  if k = .char 'q' then a
  else if k = .down ∨ k = .char 'j' then
    { a with pet_position :=
        (a.pet_position.1, min (a.pet_position.2 + 1) ((a.playground.bottom : ℚ) - 5)) }
  else if k = .up ∨ k = .char 'k' then
    { a with pet_position :=
        (a.pet_position.1, max (a.pet_position.2 - 1) (a.playground.top : ℚ)) }
  else if k = .right ∨ k = .char 'l' then
    { a with pet_position :=
        (min (a.pet_position.1 + 1) ((a.playground.right : ℚ) - 5), a.pet_position.2) }
  else if k = .left ∨ k = .char 'h' then
    { a with pet_position :=
        (max (a.pet_position.1 - 1) (a.playground.left : ℚ), a.pet_position.2) }
  else a

/-- Whether the key ends the loop (`KeyCode::Char('q') => break Ok(())`). -/
def KeyCode.quits (k : KeyCode) : Bool := k = .char 'q'

/-- `App::on_tick`: increment `tick_count`; every 60th tick saturate-increment
`hunger` at 100; every 120th tick saturating-decrement `happiness`; every
180th tick rotate `marker`; every tick move the pet by `(1.0, -0.5)` and clamp
x into `[left, right - 5]` and y into `[top, bottom - 5]`. -/
def App.on_tick (a : App) : App :=
  let tc := a.tick_count + 1
  { pet_position :=
      (min (max (a.pet_position.1 + 1) (a.playground.left : ℚ))
        ((a.playground.right : ℚ) - 5),
       min (max (a.pet_position.2 - 1/2) (a.playground.top : ℚ))
        ((a.playground.bottom : ℚ) - 5)),
    playground := a.playground,
    hunger := if tc % 60 = 0 then min (a.hunger + 1) 100 else a.hunger,
    happiness := if tc % 120 = 0 then a.happiness - 1 else a.happiness,
    tick_count := tc,
    marker := if tc % 180 = 0 then a.marker.next else a.marker }

/-- `n` consecutive tick updates. -/
def App.ticks (a : App) : ℕ → App
  | 0 => a
  | n + 1 => (a.ticks n).on_tick

/-- `n` consecutive presses of the same key. -/
def App.keyIter (a : App) (k : KeyCode) : ℕ → App
  | 0 => a
  | n + 1 => (a.keyIter k n).handleKey k

/-- One event-loop step: either one key event is dispatched or one tick fires. -/
inductive Step : App → App → Prop
  | key (a : App) (k : KeyCode) : Step a (a.handleKey k)
  | tick (a : App) : Step a a.on_tick

/-- Zero or more event-loop steps. -/
inductive Steps : App → App → Prop
  | refl (a : App) : Steps a a
  | tail {a b c : App} : Steps a b → Step b c → Steps a c

/-- States the event loop can reach from the fresh state. -/
inductive Reachable : App → Prop
  | new : Reachable App.new
  | step {a b : App} : Reachable a → Step a b → Reachable b

/-- The clamp invariant: the pet lies in
`[left, right - 5] × [top, bottom - 5]` of its own playground. -/
def App.inBounds (a : App) : Prop :=
  (a.playground.left : ℚ) ≤ a.pet_position.1 ∧
    a.pet_position.1 ≤ (a.playground.right : ℚ) - 5 ∧
    (a.playground.top : ℚ) ≤ a.pet_position.2 ∧
    a.pet_position.2 ≤ (a.playground.bottom : ℚ) - 5

instance (a : App) : Decidable a.inBounds := by
  unfold App.inBounds; infer_instance

/-- A state placed above the playground's top edge (y = 0 < top = 10); not
reachable, but a legal value of the struct, separating the code's one-sided
clamps from full interval clamps. -/
def lowApp : App := { App.new with pet_position := (100, 0) }

/-- The fresh state after forty "up" presses; its pet sits on the top edge. -/
def atTopApp : App := App.new.keyIter .up 40

/-! ## Helper lemmas -/

theorem ticks_add (a : App) (m n : ℕ) : a.ticks (m + n) = (a.ticks m).ticks n := by
  induction n with
  | zero => rfl
  | succ n ih => show ((a.ticks (m + n)).on_tick) = _; rw [ih]; rfl

theorem keyIter_add (a : App) (k : KeyCode) (m n : ℕ) :
    a.keyIter k (m + n) = (a.keyIter k m).keyIter k n := by
  induction n with
  | zero => rfl
  | succ n ih => show ((a.keyIter k (m + n)).handleKey k) = _; rw [ih]; rfl

theorem handleKey_frame (a : App) (k : KeyCode) :
    (a.handleKey k).playground = a.playground ∧
      (a.handleKey k).hunger = a.hunger ∧
      (a.handleKey k).happiness = a.happiness ∧
      (a.handleKey k).tick_count = a.tick_count ∧
      (a.handleKey k).marker = a.marker := by
  unfold App.handleKey
  split_ifs <;> exact ⟨rfl, rfl, rfl, rfl, rfl⟩

theorem handleKey_down (a : App) : a.handleKey .down =
    { a with pet_position :=
        (a.pet_position.1, min (a.pet_position.2 + 1) ((a.playground.bottom : ℚ) - 5)) } := rfl

theorem handleKey_up (a : App) : a.handleKey .up =
    { a with pet_position :=
        (a.pet_position.1, max (a.pet_position.2 - 1) (a.playground.top : ℚ)) } := rfl

theorem handleKey_right (a : App) : a.handleKey .right =
    { a with pet_position :=
        (min (a.pet_position.1 + 1) ((a.playground.right : ℚ) - 5), a.pet_position.2) } := rfl

theorem handleKey_left (a : App) : a.handleKey .left =
    { a with pet_position :=
        (max (a.pet_position.1 - 1) (a.playground.left : ℚ), a.pet_position.2) } := rfl

theorem handleKey_j (a : App) : a.handleKey (.char 'j') = a.handleKey .down := rfl

theorem handleKey_k (a : App) : a.handleKey (.char 'k') = a.handleKey .up := rfl

theorem handleKey_l (a : App) : a.handleKey (.char 'l') = a.handleKey .right := rfl

theorem handleKey_h (a : App) : a.handleKey (.char 'h') = a.handleKey .left := rfl

theorem step_playground {a b : App} (s : Step a b) : b.playground = a.playground := by
  cases s with
  | key k => exact (handleKey_frame a k).1
  | tick => rfl

theorem reachable_playground {a : App} (h : Reachable a) :
    a.playground = ⟨10, 10, 200, 100⟩ := by
  induction h with
  | new => rfl
  | step _ s ih => rw [step_playground s, ih]


theorem inBounds_handleKey (a : App) (k : KeyCode) (h : a.inBounds) :
    (a.handleKey k).inBounds := by
  obtain ⟨hx1, hx2, hy1, hy2⟩ := h
  unfold App.handleKey
  split_ifs <;> dsimp only [App.inBounds]
  · exact ⟨hx1, hx2, hy1, hy2⟩
  · exact ⟨hx1, hx2, le_min (by linarith) (by linarith), min_le_right _ _⟩
  · exact ⟨hx1, hx2, le_max_right _ _, max_le (by linarith) (by linarith)⟩
  · exact ⟨le_min (by linarith) (by linarith), min_le_right _ _, hy1, hy2⟩
  · exact ⟨le_max_right _ _, max_le (by linarith) (by linarith), hy1, hy2⟩
  · exact ⟨hx1, hx2, hy1, hy2⟩

theorem inBounds_on_tick (a : App) (h : a.inBounds) : a.on_tick.inBounds := by
  obtain ⟨hx1, hx2, hy1, hy2⟩ := h
  dsimp only [App.on_tick, App.inBounds]
  exact ⟨le_min (le_max_right _ _) (by linarith), min_le_right _ _,
    le_min (le_max_right _ _) (by linarith), min_le_right _ _⟩

theorem reachable_inBounds {a : App} (h : Reachable a) : a.inBounds := by
  induction h with
  | new => decide
  | step _ s ih =>
    cases s with
    | key k => exact inBounds_handleKey _ k ih
    | tick => exact inBounds_on_tick _ ih

theorem ticks_tick_count (a : App) (n : ℕ) :
    (a.ticks n).tick_count = a.tick_count + n := by
  induction n with
  | zero => rfl
  | succ n ih => show (a.ticks n).tick_count + 1 = _; omega

theorem new_ticks_tick_count (n : ℕ) : (App.new.ticks n).tick_count = n := by
  have h := ticks_tick_count App.new n
  simpa [App.new] using h

theorem new_ticks_hunger (n : ℕ) : (App.new.ticks n).hunger = min (n / 60) 100 := by
  induction n with
  | zero => rfl
  | succ n ih =>
    show (if ((App.new.ticks n).tick_count + 1) % 60 = 0
        then min ((App.new.ticks n).hunger + 1) 100 else (App.new.ticks n).hunger) = _
    rw [new_ticks_tick_count, ih]
    by_cases h : (n + 1) % 60 = 0
    · rw [if_pos h]; omega
    · rw [if_neg h]; omega

theorem new_ticks_happiness (n : ℕ) : (App.new.ticks n).happiness = 100 - n / 120 := by
  induction n with
  | zero => rfl
  | succ n ih =>
    show (if ((App.new.ticks n).tick_count + 1) % 120 = 0
        then (App.new.ticks n).happiness - 1 else (App.new.ticks n).happiness) = _
    rw [new_ticks_tick_count, ih]
    by_cases h : (n + 1) % 120 = 0
    · rw [if_pos h]; omega
    · rw [if_neg h]; omega

theorem markerCycle_next (m : ℕ) :
    (markerCycle.getD (m % 5) .dot).next = markerCycle.getD ((m + 1) % 5) .dot := by
  have h5 : (m + 1) % 5 = (m % 5 + 1) % 5 := by omega
  have h : m % 5 = 0 ∨ m % 5 = 1 ∨ m % 5 = 2 ∨ m % 5 = 3 ∨ m % 5 = 4 := by omega
  rw [h5]
  rcases h with h | h | h | h | h <;> rw [h] <;> rfl

theorem new_ticks_marker (n : ℕ) :
    (App.new.ticks n).marker = markerCycle.getD ((1 + n / 180) % 5) .dot := by
  induction n with
  | zero => rfl
  | succ n ih =>
    show (if ((App.new.ticks n).tick_count + 1) % 180 = 0
        then ((App.new.ticks n).marker).next else (App.new.ticks n).marker) = _
    rw [new_ticks_tick_count, ih]
    by_cases h : (n + 1) % 180 = 0
    · rw [if_pos h]
      have hdiv : 1 + (n + 1) / 180 = (1 + n / 180) + 1 := by omega
      rw [hdiv]
      exact markerCycle_next (1 + n / 180)
    · rw [if_neg h]
      have hdiv : (n + 1) / 180 = n / 180 := by omega
      rw [hdiv]

theorem new_ticks_60 :
    App.new.ticks 60 = ⟨(160, 20), ⟨10, 10, 200, 100⟩, 1, 100, 60, .braille⟩ := by
  have h0 : App.new.ticks 15 =
      ⟨(115, 85/2), ⟨10, 10, 200, 100⟩, 0, 100, 15, .braille⟩ := by decide
  have h1 : (⟨(115, 85/2), ⟨10, 10, 200, 100⟩, 0, 100, 15, .braille⟩ : App).ticks 15 =
      ⟨(130, 35), ⟨10, 10, 200, 100⟩, 0, 100, 30, .braille⟩ := by decide
  have h2 : (⟨(130, 35), ⟨10, 10, 200, 100⟩, 0, 100, 30, .braille⟩ : App).ticks 15 =
      ⟨(145, 55/2), ⟨10, 10, 200, 100⟩, 0, 100, 45, .braille⟩ := by decide
  have h3 : (⟨(145, 55/2), ⟨10, 10, 200, 100⟩, 0, 100, 45, .braille⟩ : App).ticks 15 =
      ⟨(160, 20), ⟨10, 10, 200, 100⟩, 1, 100, 60, .braille⟩ := by decide
  show App.new.ticks (15 + 15 + 15 + 15) = _
  rw [ticks_add, ticks_add, ticks_add, h0, h1, h2, h3]

theorem atTopApp_eq :
    atTopApp = ⟨(100, 10), ⟨10, 10, 200, 100⟩, 0, 100, 0, .braille⟩ := by
  have h0 : App.new.keyIter .up 20 =
      ⟨(100, 30), ⟨10, 10, 200, 100⟩, 0, 100, 0, .braille⟩ := by decide
  have h1 : (⟨(100, 30), ⟨10, 10, 200, 100⟩, 0, 100, 0, .braille⟩ : App).keyIter .up 20 =
      ⟨(100, 10), ⟨10, 10, 200, 100⟩, 0, 100, 0, .braille⟩ := by decide
  show App.new.keyIter .up (20 + 20) = _
  rw [keyIter_add, h0, h1]

theorem reachable_keyIter {a : App} (h : Reachable a) (k : KeyCode) (n : ℕ) :
    Reachable (a.keyIter k n) := by
  induction n with
  | zero => exact h
  | succ n ih => exact Reachable.step ih (Step.key _ k)

theorem step_mood_bounds {a b : App} (s : Step a b)
    (h : a.hunger ≤ 100 ∧ a.happiness ≤ 100) : b.hunger ≤ 100 ∧ b.happiness ≤ 100 := by
  cases s with
  | key k =>
    obtain ⟨_, h1, h2, _, _⟩ := handleKey_frame a k
    rw [h1, h2]; exact h
  | tick =>
    obtain ⟨h1, h2⟩ := h
    constructor
    · show (if (a.tick_count + 1) % 60 = 0 then min (a.hunger + 1) 100 else a.hunger) ≤ 100
      split_ifs <;> omega
    · show (if (a.tick_count + 1) % 120 = 0 then a.happiness - 1 else a.happiness) ≤ 100
      split_ifs <;> omega

theorem reachable_mood_bounds {a : App} (h : Reachable a) :
    a.hunger ≤ 100 ∧ a.happiness ≤ 100 := by
  induction h with
  | new => exact ⟨by norm_num [App.new], by norm_num [App.new]⟩
  | step _ s ih => exact step_mood_bounds s ih

theorem step_mood_mono {a b : App} (s : Step a b) (hh : a.hunger ≤ 100) :
    a.hunger ≤ b.hunger ∧ b.happiness ≤ a.happiness := by
  cases s with
  | key k =>
    obtain ⟨_, h1, h2, _, _⟩ := handleKey_frame a k
    rw [h1, h2]; exact ⟨le_refl _, le_refl _⟩
  | tick =>
    constructor
    · show a.hunger ≤ (if (a.tick_count + 1) % 60 = 0 then min (a.hunger + 1) 100 else a.hunger)
      split_ifs <;> omega
    · show (if (a.tick_count + 1) % 120 = 0 then a.happiness - 1 else a.happiness) ≤ a.happiness
      split_ifs <;> omega

theorem steps_reachable {a b : App} (h : Reachable a) (hs : Steps a b) : Reachable b := by
  induction hs with
  | refl => exact h
  | tail _ s ih => exact Reachable.step ih s

/-! ## Claims -/

/-- Claim C1: every state reachable from the fresh state by key inputs and
ticks keeps `pet_position.x` in `[playground.left, playground.right - 5]` and
`pet_position.y` in `[playground.top, playground.bottom - 5]`; since this
holds of every reachable state, it holds before and after each input handling
and each tick update. -/
theorem c1_clamp_invariant (a : App) (h : Reachable a) : a.inBounds :=
  reachable_inBounds h

theorem c1_witness : Reachable App.new ∧ App.new.inBounds :=
  ⟨Reachable.new, c1_clamp_invariant App.new Reachable.new⟩

/-- Claim C2, counterexample to the claim as stated: after 60 ticks from the
fresh state the marker is Braille, while the claimed formula
`cycle[(60/180) mod 5]` gives Dot. -/
theorem c2_counterexample :
    (App.new.ticks 60).marker = Marker.braille ∧
      markerCycle.getD ((60 / 180) % 5) Marker.dot = Marker.dot ∧
      Marker.braille ≠ Marker.dot := by
  refine ⟨?_, by decide, by decide⟩
  rw [new_ticks_60]

/-- Claim C2 as amended: the fresh marker is Braille (index 1 of the cycle),
so after `n` ticks the marker is the `((1 + n/180) mod 5)`-th element of
[Dot, Braille, Block, HalfBlock, Bar]; in particular after 60 ticks it is
still Braille, and each 180th tick advances the marker one step along the
cycle Dot→Braille→Block→HalfBlock→Bar→Dot. -/
theorem c2_marker_cycle :
    (∀ n : ℕ, (App.new.ticks n).marker = markerCycle.getD ((1 + n / 180) % 5) Marker.dot) ∧
      (App.new.ticks 60).marker = Marker.braille ∧
      (∀ n : ℕ, (App.new.ticks (n + 1)).marker =
        if (n + 1) % 180 = 0 then ((App.new.ticks n).marker).next
        else (App.new.ticks n).marker) := by
  refine ⟨new_ticks_marker, by rw [new_ticks_60], fun n => ?_⟩
  show (if ((App.new.ticks n).tick_count + 1) % 180 = 0 then ((App.new.ticks n).marker).next
      else (App.new.ticks n).marker) = _
  rw [new_ticks_tick_count]

/-- Claim C3: after `n` ticks from the fresh state, hunger equals
`min(n/60, 100)`; equivalently, a tick update increments hunger saturating at
100 exactly when the new tick count is divisible by 60 and otherwise leaves
hunger unchanged. -/
theorem c3_hunger_formula :
    (∀ n : ℕ, (App.new.ticks n).hunger = min (n / 60) 100) ∧
      (∀ a : App, a.on_tick.hunger =
        if (a.tick_count + 1) % 60 = 0 then min (a.hunger + 1) 100 else a.hunger) :=
  ⟨new_ticks_hunger, fun _ => rfl⟩

/-- Claim C4: after `n` ticks from the fresh state, happiness equals
`max(100 - n/120, 0)`; equivalently, a tick update saturating-decrements
happiness exactly when the new tick count is divisible by 120 and otherwise
leaves it unchanged. -/
theorem c4_happiness_formula :
    (∀ n : ℕ, ((App.new.ticks n).happiness : ℤ) = max (100 - ((n / 120 : ℕ) : ℤ)) 0) ∧
      (∀ a : App, a.on_tick.happiness =
        if (a.tick_count + 1) % 120 = 0 then a.happiness - 1 else a.happiness) := by
  refine ⟨fun n => ?_, fun _ => rfl⟩
  have h := new_ticks_happiness n
  omega

/-- Claim C5: every tick update applies the movement vector `(1.0, -0.5)` to
`pet_position` and clamps x into `[left, right - 5]` and y into
`[top, bottom - 5]`; and from the fresh state, after 60 ticks the position
equals the initial position plus `(60, -30)`, clamped. -/
theorem c5_tick_movement :
    (∀ a : App, a.on_tick.pet_position =
      (min (max (a.pet_position.1 + 1) ((a.playground.left : ℚ)))
        ((a.playground.right : ℚ) - 5),
        min (max (a.pet_position.2 - 1/2) ((a.playground.top : ℚ)))
          ((a.playground.bottom : ℚ) - 5))) ∧
      (App.new.ticks 60).pet_position =
        (min (max (App.new.pet_position.1 + 60) ((App.new.playground.left : ℚ)))
          ((App.new.playground.right : ℚ) - 5),
          min (max (App.new.pet_position.2 - 30) ((App.new.playground.top : ℚ)))
            ((App.new.playground.bottom : ℚ) - 5)) := by
  refine ⟨fun _ => rfl, ?_⟩
  rw [new_ticks_60]
  decide

/-- Claim C6, counterexample to the claim as stated: on the (unreachable)
state `lowApp` with y = 0, the down key yields y = 1, not the value 10 that
clamping `y + 1` into `[playground.top, playground.bottom - 5] = [10, 105]`
would give — the code clamps each direction on one side only. -/
theorem c6_counterexample :
    (lowApp.handleKey KeyCode.down).pet_position.2 = 1 ∧
      min (max (lowApp.pet_position.2 + 1) ((lowApp.playground.top : ℚ)))
        ((lowApp.playground.bottom : ℚ) - 5) = 10 ∧
      (1 : ℚ) ≠ 10 := by
  exact ⟨by decide, by decide, by decide⟩

/-- Claim C6 as amended: on every state satisfying the clamp invariant (as
every reachable state does), a single key press performs at most one discrete
mutation: every key leaves hunger, happiness, tick_count, marker and
playground unchanged; down/'j' adds 1 to y, up/'k' subtracts 1 from y, each
result clamped into `[top, bottom - 5]`; right/'l' adds 1 to x, left/'h'
subtracts 1 from x, each result clamped into `[left, right - 5]`; 'q'
requests loop termination and leaves the state unchanged; every other key
leaves the entire state unchanged. -/
theorem c6_input_mapping (a : App) (h : a.inBounds) :
    (∀ k : KeyCode, (a.handleKey k).playground = a.playground ∧
        (a.handleKey k).hunger = a.hunger ∧ (a.handleKey k).happiness = a.happiness ∧
        (a.handleKey k).tick_count = a.tick_count ∧ (a.handleKey k).marker = a.marker) ∧
      ((a.handleKey .down).pet_position = (a.pet_position.1,
        min (max (a.pet_position.2 + 1) ((a.playground.top : ℚ)))
          ((a.playground.bottom : ℚ) - 5)) ∧
        a.handleKey (.char 'j') = a.handleKey .down) ∧
      ((a.handleKey .up).pet_position = (a.pet_position.1,
        min (max (a.pet_position.2 - 1) ((a.playground.top : ℚ)))
          ((a.playground.bottom : ℚ) - 5)) ∧
        a.handleKey (.char 'k') = a.handleKey .up) ∧
      ((a.handleKey .right).pet_position = (min (max (a.pet_position.1 + 1)
        ((a.playground.left : ℚ))) ((a.playground.right : ℚ) - 5), a.pet_position.2) ∧
        a.handleKey (.char 'l') = a.handleKey .right) ∧
      ((a.handleKey .left).pet_position = (min (max (a.pet_position.1 - 1)
        ((a.playground.left : ℚ))) ((a.playground.right : ℚ) - 5), a.pet_position.2) ∧
        a.handleKey (.char 'h') = a.handleKey .left) ∧
      (KeyCode.quits (.char 'q') = true ∧ a.handleKey (.char 'q') = a) ∧
      (∀ c : Char, c ≠ 'q' → c ≠ 'j' → c ≠ 'k' → c ≠ 'l' → c ≠ 'h' →
        a.handleKey (.char c) = a) ∧
      a.handleKey .other = a := by
  obtain ⟨hx1, hx2, hy1, hy2⟩ := h
  refine ⟨handleKey_frame a, ⟨?_, rfl⟩, ⟨?_, rfl⟩, ⟨?_, rfl⟩, ⟨?_, rfl⟩, ⟨rfl, rfl⟩, ?_, rfl⟩
  · show (a.pet_position.1, min (a.pet_position.2 + 1) ((a.playground.bottom : ℚ) - 5)) = _
    rw [max_eq_left (by linarith : (a.playground.top : ℚ) ≤ a.pet_position.2 + 1)]
  · show (a.pet_position.1, max (a.pet_position.2 - 1) ((a.playground.top : ℚ))) = _
    rw [min_eq_left (max_le (by linarith) (by linarith) :
      max (a.pet_position.2 - 1) ((a.playground.top : ℚ)) ≤ (a.playground.bottom : ℚ) - 5)]
  · show (min (a.pet_position.1 + 1) ((a.playground.right : ℚ) - 5), a.pet_position.2) = _
    rw [max_eq_left (by linarith : (a.playground.left : ℚ) ≤ a.pet_position.1 + 1)]
  · show (max (a.pet_position.1 - 1) ((a.playground.left : ℚ)), a.pet_position.2) = _
    rw [min_eq_left (max_le (by linarith) (by linarith) :
      max (a.pet_position.1 - 1) ((a.playground.left : ℚ)) ≤ (a.playground.right : ℚ) - 5)]
  · intro c hq hj hk hl hh2
    have e1 : ¬ ((KeyCode.char c) = .char 'q') := by simp [hq]
    have e2 : ¬ ((KeyCode.char c) = .down ∨ (KeyCode.char c) = .char 'j') := by simp [hj]
    have e3 : ¬ ((KeyCode.char c) = .up ∨ (KeyCode.char c) = .char 'k') := by simp [hk]
    have e4 : ¬ ((KeyCode.char c) = .right ∨ (KeyCode.char c) = .char 'l') := by simp [hl]
    have e5 : ¬ ((KeyCode.char c) = .left ∨ (KeyCode.char c) = .char 'h') := by simp [hh2]
    unfold App.handleKey
    rw [if_neg e1, if_neg e2, if_neg e3, if_neg e4, if_neg e5]

theorem c6_witness :
    App.new.inBounds ∧ (App.new.handleKey KeyCode.down).pet_position =
      (App.new.pet_position.1, min (max (App.new.pet_position.2 + 1)
        ((App.new.playground.top : ℚ))) ((App.new.playground.bottom : ℚ) - 5)) :=
  ⟨by decide, (c6_input_mapping App.new (by decide)).2.1.1⟩

/-- Claim C7: on every reachable state whose pet sits at a directional
boundary, pressing that direction's key leaves the position unchanged, for
all four directions. -/
theorem c7_boundary_moves (a : App) (_hr : Reachable a) :
    (a.pet_position.1 = (a.playground.right : ℚ) - 5 →
      (a.handleKey .right).pet_position = a.pet_position) ∧
      (a.pet_position.1 = (a.playground.left : ℚ) →
        (a.handleKey .left).pet_position = a.pet_position) ∧
      (a.pet_position.2 = (a.playground.bottom : ℚ) - 5 →
        (a.handleKey .down).pet_position = a.pet_position) ∧
      (a.pet_position.2 = (a.playground.top : ℚ) →
        (a.handleKey .up).pet_position = a.pet_position) := by
  refine ⟨fun hb => ?_, fun hb => ?_, fun hb => ?_, fun hb => ?_⟩
  · show (min (a.pet_position.1 + 1) ((a.playground.right : ℚ) - 5), a.pet_position.2)
        = a.pet_position
    rw [min_eq_right (by rw [hb]; linarith), ← hb]
  · show (max (a.pet_position.1 - 1) ((a.playground.left : ℚ)), a.pet_position.2)
        = a.pet_position
    rw [max_eq_right (by rw [hb]; linarith), ← hb]
  · show (a.pet_position.1, min (a.pet_position.2 + 1) ((a.playground.bottom : ℚ) - 5))
        = a.pet_position
    rw [min_eq_right (by rw [hb]; linarith), ← hb]
  · show (a.pet_position.1, max (a.pet_position.2 - 1) ((a.playground.top : ℚ)))
        = a.pet_position
    rw [max_eq_right (by rw [hb]; linarith), ← hb]

theorem c7_witness :
    Reachable atTopApp ∧ atTopApp.pet_position.2 = (atTopApp.playground.top : ℚ) ∧
      (atTopApp.handleKey KeyCode.up).pet_position = atTopApp.pet_position := by
  have hr : Reachable atTopApp := reachable_keyIter Reachable.new .up 40
  refine ⟨hr, ?_, (c7_boundary_moves atTopApp hr).2.2.2 ?_⟩ <;> rw [atTopApp_eq] <;> decide

/-- Claim C8: along any sequence of event-loop steps from a reachable state,
hunger never decreases and happiness never increases, and both stay at most
100 (they are naturals, hence at least 0, and saturate at the bounds). -/
theorem c8_mood_monotone (a b : App) (ha : Reachable a) (hs : Steps a b) :
    a.hunger ≤ b.hunger ∧ b.happiness ≤ a.happiness ∧
      b.hunger ≤ 100 ∧ b.happiness ≤ 100 := by
  induction hs with
  | refl =>
    obtain ⟨h1, h2⟩ := reachable_mood_bounds ha
    exact ⟨le_refl _, le_refl _, h1, h2⟩
  | tail hab sbc ih =>
    obtain ⟨m1, m2, mb1, mb2⟩ := ih
    have hmono := step_mood_mono sbc mb1
    have hbounds := step_mood_bounds sbc ⟨mb1, mb2⟩
    exact ⟨le_trans m1 hmono.1, le_trans hmono.2 m2, hbounds.1, hbounds.2⟩

theorem c8_witness :
    Reachable App.new ∧ Steps App.new App.new.on_tick ∧
      App.new.hunger ≤ App.new.on_tick.hunger ∧
      App.new.on_tick.happiness ≤ App.new.happiness ∧
      App.new.on_tick.hunger ≤ 100 ∧ App.new.on_tick.happiness ≤ 100 := by
  have hs : Steps App.new App.new.on_tick := Steps.tail (Steps.refl _) (Step.tick _)
  have h := c8_mood_monotone App.new App.new.on_tick Reachable.new hs
  exact ⟨Reachable.new, hs, h.1, h.2.1, h.2.2.1, h.2.2.2⟩

/-- Claim C9: the playground rectangle is fixed at construction and immutable:
no key handling and no tick update changes it, and every reachable state
still carries `Rect::new(10, 10, 200, 100)`. -/
theorem c9_playground_immutable :
    (∀ (a : App) (k : KeyCode), (a.handleKey k).playground = a.playground) ∧
      (∀ a : App, a.on_tick.playground = a.playground) ∧
      (∀ a : App, Reachable a → a.playground = ⟨10, 10, 200, 100⟩) :=
  ⟨fun a k => (handleKey_frame a k).1, fun _ => rfl, fun _ h => reachable_playground h⟩

theorem c9_witness : Reachable App.new ∧ App.new.playground = (⟨10, 10, 200, 100⟩ : Rect) :=
  ⟨Reachable.new, c9_playground_immutable.2.2 App.new Reachable.new⟩

/-- Claim C10: the fresh state has position (100, 50), playground
Rect{x:10, y:10, width:200, height:100} with left 10, top 10, right 210,
bottom 110, hunger 0, happiness 100, tick count 0, and marker Braille — the
second element of the marker cycle, not Dot. -/
theorem c10_fresh_state :
    App.new.pet_position = (100, 50) ∧
      App.new.playground = (⟨10, 10, 200, 100⟩ : Rect) ∧
      App.new.playground.left = 10 ∧ App.new.playground.top = 10 ∧
      App.new.playground.right = 210 ∧ App.new.playground.bottom = 110 ∧
      App.new.hunger = 0 ∧ App.new.happiness = 100 ∧ App.new.tick_count = 0 ∧
      App.new.marker = Marker.braille ∧ Marker.braille ≠ Marker.dot ∧
      markerCycle.getD 1 Marker.dot = Marker.braille := by
  decide
